import Mathlib

/-!
A shallow embedding of the `ActiveSessionManager` class from `src/index.tsx`
(the "Session Arbiter" of the design document) together with its
`localStorage` coordination medium, and proofs of the documented properties.

`localStorage` is modelled as an ordered association list of entries; the
order gives the `localStorage.key(i)` enumeration.  Storage unavailability
(every operation throws) is a flag on the system state; the Arbiter catches
every storage exception locally, so in the embedding an unavailable storage
simply takes the catch branch.  `console.warn` calls are counted, and the
conflict callback is modelled by counting its invocations.
-/

namespace SessionArbiter

/-- One `localStorage` entry: key and value. -/
abbrev Entry := String × String

/-- The fixed namespace marker for claim keys: the source constant
`ACTIVE_SESSION_KEY_PREFIX = 'semanticAppActiveSession_'` (src/index.tsx:307). -/
def ACTIVE_SESSION_KEY_NS : String := "semanticAppActiveSession_"

/-- The test `key.startsWith(ACTIVE_SESSION_KEY_PREFIX)` from the sweep loop of
`claimSession` (src/index.tsx:332).  `String.startsWith` is embedded as
prefix-of on the underlying character data, which is kernel-computable. -/
def isClaimKey (k : String) : Bool :=
  ACTIVE_SESSION_KEY_NS.data.isPrefixOf k.data

/-- Browser storage together with its availability (an unavailable storage
throws on every operation) and a count of the `console.warn` calls made so
far by the session-management code. -/
structure Sys where
  storage : List Entry
  available : Bool
  warnings : Nat
  deriving DecidableEq

/-- Embedding of `localStorage.getItem`: the value at the key, if present. -/
def getItem (l : List Entry) (k : String) : Option String :=
  (l.find? (fun e => e.1 == k)).map (fun e => e.2)

/-- Embedding of `localStorage.setItem`: replaces the value in place when the key is
present, otherwise appends a fresh entry at the end of the enumeration. -/
def setItem (l : List Entry) (k v : String) : List Entry :=
  if l.any (fun e => e.1 == k) then
    l.map (fun e => if e.1 == k then (k, v) else e)
  else
    l ++ [(k, v)]

/-- Embedding of `localStorage.removeItem`: drops every entry at the key. -/
def removeItem (l : List Entry) (k : String) : List Entry :=
  l.filter (fun e => e.1 != k)

/-- The sweep loop of `claimSession` (src/index.tsx:330-335):
`for (let i = 0; i < localStorage.length; i++)` with `removeItem` inside.
Removing the entry at index `i` shifts its successor into slot `i`, and the
loop's `i++` then steps over that successor, so the entry immediately after
a removed claim key is never examined.  The index loop is rephrased as the
equivalent left-to-right structural recursion: a removed claim key makes the
scan keep its successor unexamined and continue after it. -/
def claimSweep : List Entry → List Entry
  | [] => []
  | [e] => if isClaimKey e.1 then [] else [e]
  | e :: f :: rest =>
    if isClaimKey e.1 then f :: claimSweep rest
    else e :: claimSweep (f :: rest)

/-- In-memory state of one `ActiveSessionManager` instance
(src/index.tsx:312-317).  The stored `onConflict` callback is modelled by
counting its invocations (`conflictCount`); the interval id by whether the
interval is currently installed (`intervalRunning`). -/
structure ActiveSessionManager where
  storageKey : String
  isActiveSession : Bool
  intervalRunning : Bool
  conflictCount : Nat
  deriving DecidableEq

/-- The method `claimSession` (src/index.tsx:328-341): sweep the claim keys the loop
reaches, write this instance's own key with the sentinel `'active'`, set the
active flag.  When storage throws, the catch logs a warning and leaves every
piece of state as it was. -/
def claimSession (m : ActiveSessionManager) (s : Sys) : ActiveSessionManager × Sys :=
  if s.available then
    ({ m with isActiveSession := true },
     { s with storage := setItem (claimSweep s.storage) m.storageKey "active" })
  else
    (m, { s with warnings := s.warnings + 1 })

/-- The constructor (src/index.tsx:319-326): derive the storage key from the
session id, initialize the active flag to true, run `claimSession`, then
`setupListeners` (which installs the beforeunload hook — page teardown is
outside this model — and starts the 3000 ms interval). -/
def constructManager (sessionId : String) (s : Sys) : ActiveSessionManager × Sys :=
  let m0 : ActiveSessionManager :=
    { storageKey := ACTIVE_SESSION_KEY_NS ++ sessionId
      isActiveSession := true
      intervalRunning := false
      conflictCount := 0 }
  let r := claimSession m0 s
  ({ r.1 with intervalRunning := true }, r.2)

/-- One firing of the periodic check (src/index.tsx:352-365).  Nothing fires
when the interval has been cleared; an evicted instance returns at once
(`if (!this.isActiveSession) return`); otherwise the instance re-reads its
own key and, unless the exact sentinel `'active'` comes back, flips to
evicted, invokes the conflict callback once and clears its own interval.  A
throwing storage is caught and warned about, leaving the flags untouched. -/
def periodicCheck (m : ActiveSessionManager) (s : Sys) : ActiveSessionManager × Sys :=
  if !m.intervalRunning then (m, s)
  else if !m.isActiveSession then (m, s)
  else if s.available then
    if getItem s.storage m.storageKey = some "active" then (m, s)
    else
      ({ m with isActiveSession := false,
                conflictCount := m.conflictCount + 1,
                intervalRunning := false }, s)
  else (m, { s with warnings := s.warnings + 1 })

/-- Iterates `n` successive firings of the periodic check. -/
def periodicCheckN : Nat → ActiveSessionManager → Sys → ActiveSessionManager × Sys
  | 0, m, s => (m, s)
  | n + 1, m, s =>
    let r := periodicCheck m s
    periodicCheckN n r.1 r.2

/-- The method `isCurrentActiveSession` (src/index.tsx:368-370): a pure read of the
in-memory flag, no storage access. -/
def isCurrentActiveSession (m : ActiveSessionManager) : Bool :=
  m.isActiveSession

/-- The method `releaseSession` (src/index.tsx:372-379): clear the interval; while still
marked active, remove the own claim key (a throwing storage is silently
ignored, no warning).  The active flag itself is never written. -/
def releaseSession (m : ActiveSessionManager) (s : Sys) : ActiveSessionManager × Sys :=
  let m1 := { m with intervalRunning := false }
  if m1.isActiveSession then
    if s.available then
      (m1, { s with storage := removeItem s.storage m1.storageKey })
    else (m1, s)
  else (m1, s)

/-- The operations available on a constructed instance: a firing of the
periodic check, `releaseSession`, and the side-effect-free
`isCurrentActiveSession`. -/
inductive ArbOp
  | check : ArbOp
  | release : ArbOp
  | query : ArbOp
  deriving DecidableEq

def applyOp (o : ArbOp) (m : ActiveSessionManager) (s : Sys) : ActiveSessionManager × Sys :=
  match o with
  | .check => periodicCheck m s
  | .release => releaseSession m s
  | .query => (m, s)

def applyOps : List ArbOp → ActiveSessionManager → Sys → ActiveSessionManager × Sys
  | [], m, s => (m, s)
  | o :: os, m, s =>
    let r := applyOp o m s
    applyOps os r.1 r.2

/-- Constructing one instance per session id, in sequence, threading the
storage through; the resulting storage state. -/
def constructAll : List String → Sys → Sys
  | [], s => s
  | i :: is, s => constructAll is (constructManager i s).2

/-- No two adjacent entries of the enumeration both carry claim keys. -/
def noAdjacentClaims : List Entry → Bool
  | [] => true
  | [_] => true
  | e :: f :: rest =>
    (!(isClaimKey e.1 && isClaimKey f.1)) && noAdjacentClaims (f :: rest)

/-! Helper lemmas about the storage model and the sweep. -/

theorem isPrefixOf_append_self (l t : List Char) : l.isPrefixOf (l ++ t) = true := by
  induction l with
  | nil => simp [List.isPrefixOf]
  | cons a as ih => simp [List.isPrefixOf, ih]

theorem isClaimKey_ns_append (id : String) :
    isClaimKey (ACTIVE_SESSION_KEY_NS ++ id) = true := by
  unfold isClaimKey
  have hdata : (ACTIVE_SESSION_KEY_NS ++ id).data
      = ACTIVE_SESSION_KEY_NS.data ++ id.data := by
    cases id; rfl
  rw [hdata]
  exact isPrefixOf_append_self _ _

theorem nsKey_inj {a b : String}
    (h : ACTIVE_SESSION_KEY_NS ++ a = ACTIVE_SESSION_KEY_NS ++ b) : a = b := by
  have hd : ACTIVE_SESSION_KEY_NS.data ++ a.data
      = ACTIVE_SESSION_KEY_NS.data ++ b.data := by
    have h2 := congrArg String.data h
    cases a; cases b; simpa using h2
  have h3 : a.data = b.data := List.append_cancel_left hd
  cases a; cases b; simp_all

theorem notClaim_ne_nsKey {k : String} (id : String) (h : isClaimKey k = false) :
    k ≠ ACTIVE_SESSION_KEY_NS ++ id := by
  intro heq
  rw [heq, isClaimKey_ns_append] at h
  exact absurd h (by simp)

theorem claimSweep_cons_notClaim (e : Entry) (l : List Entry)
    (h : isClaimKey e.1 = false) : claimSweep (e :: l) = e :: claimSweep l := by
  cases l <;> simp [claimSweep, h]

theorem claimSweep_cons_claim_cons (e f : Entry) (rest : List Entry)
    (h : isClaimKey e.1 = true) :
    claimSweep (e :: f :: rest) = f :: claimSweep rest := by
  simp [claimSweep, h]

theorem noAdjacentClaims_tail (e : Entry) (l : List Entry)
    (h : noAdjacentClaims (e :: l) = true) : noAdjacentClaims l = true := by
  cases l with
  | nil => rfl
  | cons f rest =>
    simp only [noAdjacentClaims, Bool.and_eq_true] at h
    exact h.2

theorem claimSweep_clean :
    ∀ l : List Entry, noAdjacentClaims l = true →
      ∀ e ∈ claimSweep l, isClaimKey e.1 = false
  | [], _, e, he => by simp [claimSweep] at he
  | [a], h, e, he => by
    by_cases hc : isClaimKey a.1
    · simp [claimSweep, hc] at he
    · simp [claimSweep, hc] at he
      subst he
      simpa using hc
  | a :: b :: rest, h, e, he => by
    simp only [noAdjacentClaims, Bool.and_eq_true] at h
    obtain ⟨hab, hrest⟩ := h
    by_cases hc : isClaimKey a.1
    · rw [claimSweep_cons_claim_cons a b rest hc] at he
      rcases List.mem_cons.mp he with hb | htl
      · subst hb
        cases hbv : isClaimKey e.1 with
        | false => rfl
        | true => simp [hc, hbv] at hab
      · exact claimSweep_clean rest (noAdjacentClaims_tail b rest hrest) e htl
    · rw [claimSweep_cons_notClaim a (b :: rest) (by simpa using hc)] at he
      rcases List.mem_cons.mp he with ha | htl
      · subst ha
        simpa using hc
      · exact claimSweep_clean (b :: rest) hrest e htl

theorem claimSweep_id (l : List Entry) (h : ∀ e ∈ l, isClaimKey e.1 = false) :
    claimSweep l = l := by
  induction l with
  | nil => rfl
  | cons a t ih =>
    rw [claimSweep_cons_notClaim a t (h a (by simp))]
    rw [ih (fun e he => h e (by simp [he]))]

theorem claimSweep_append_single (l : List Entry) (k v : String)
    (hl : ∀ e ∈ l, isClaimKey e.1 = false) (hk : isClaimKey k = true) :
    claimSweep (l ++ [(k, v)]) = l := by
  induction l with
  | nil => simp [claimSweep, hk]
  | cons a t ih =>
    have ha := hl a (by simp)
    rw [List.cons_append, claimSweep_cons_notClaim a _ ha,
      ih (fun e he => hl e (by simp [he]))]

theorem setItem_absent (l : List Entry) (k v : String) (h : ∀ e ∈ l, e.1 ≠ k) :
    setItem l k v = l ++ [(k, v)] := by
  have hany : l.any (fun e => e.1 == k) = false := by
    simp only [List.any_eq_false]
    intro e he
    simpa using h e he
  simp [setItem, hany]

theorem getItem_absent (l : List Entry) (k : String) (h : ∀ e ∈ l, e.1 ≠ k) :
    getItem l k = none := by
  have hf : l.find? (fun e => e.1 == k) = none := by
    rw [List.find?_eq_none]
    intro e he
    simpa using h e he
  simp [getItem, hf]

theorem getItem_append_last (l : List Entry) (k v : String)
    (h : ∀ e ∈ l, e.1 ≠ k) : getItem (l ++ [(k, v)]) k = some v := by
  induction l with
  | nil => simp [getItem, List.find?]
  | cons a t ih =>
    have ha : (a.1 == k) = false := by
      simpa using h a (by simp)
    simp only [List.cons_append, getItem, List.find?] at ih ⊢
    rw [ha]
    exact ih (fun e he => h e (by simp [he]))

theorem getItem_removeItem_self (l : List Entry) (k : String) :
    getItem (removeItem l k) k = none := by
  apply getItem_absent
  intro e he
  simp only [removeItem, List.mem_filter, bne_iff_ne, ne_eq] at he
  exact he.2

theorem removeItem_idem (l : List Entry) (k : String) :
    removeItem (removeItem l k) k = removeItem l k := by
  simp [removeItem, List.filter_filter]

theorem noAdjacentClaims_of_clean (l : List Entry)
    (h : ∀ e ∈ l, isClaimKey e.1 = false) : noAdjacentClaims l = true := by
  induction l with
  | nil => rfl
  | cons a t ih =>
    cases t with
    | nil => rfl
    | cons b r =>
      simp only [noAdjacentClaims, Bool.and_eq_true]
      refine ⟨?_, ih (fun e he => h e (by simp [he]))⟩
      have ha := h a (by simp)
      simp [ha]

/-! Effect of the constructor on the two components of the state. -/

theorem constructManager_fst (id : String) (s : Sys) (hav : s.available = true) :
    (constructManager id s).1 =
      { storageKey := ACTIVE_SESSION_KEY_NS ++ id, isActiveSession := true,
        intervalRunning := true, conflictCount := 0 } := by
  simp [constructManager, claimSession, hav]

theorem constructManager_storage (id : String) (l tail : List Entry) (w : Nat)
    (hl : ∀ e ∈ l, isClaimKey e.1 = false)
    (htail : tail = [] ∨ ∃ ck v, tail = [(ck, v)] ∧ isClaimKey ck = true) :
    (constructManager id ⟨l ++ tail, true, w⟩).2
      = ⟨l ++ [(ACTIVE_SESSION_KEY_NS ++ id, "active")], true, w⟩ := by
  have hsweep : claimSweep (l ++ tail) = l := by
    rcases htail with h0 | ⟨ck, v, h1, hck⟩
    · rw [h0, List.append_nil]
      exact claimSweep_id l hl
    · rw [h1]
      exact claimSweep_append_single l ck v hl hck
  have hset : setItem (claimSweep (l ++ tail)) (ACTIVE_SESSION_KEY_NS ++ id) "active"
      = l ++ [(ACTIVE_SESSION_KEY_NS ++ id, "active")] := by
    rw [hsweep]
    exact setItem_absent _ _ _ (fun e he => notClaim_ne_nsKey id (hl e he))
  simp [constructManager, claimSession, hset]

theorem constructManager_eq (id : String) (s : Sys) (hav : s.available = true)
    (hadj : noAdjacentClaims s.storage = true) :
    constructManager id s =
      ({ storageKey := ACTIVE_SESSION_KEY_NS ++ id, isActiveSession := true,
         intervalRunning := true, conflictCount := 0 },
       { s with storage :=
           claimSweep s.storage ++ [(ACTIVE_SESSION_KEY_NS ++ id, "active")] }) := by
  have hset : setItem (claimSweep s.storage) (ACTIVE_SESSION_KEY_NS ++ id) "active"
      = claimSweep s.storage ++ [(ACTIVE_SESSION_KEY_NS ++ id, "active")] := by
    refine setItem_absent _ _ _ ?_
    intro e he
    exact notClaim_ne_nsKey id (claimSweep_clean s.storage hadj e he)
  simp [constructManager, claimSession, hav, hset]

theorem constructManager_unavailable (id : String) (l : List Entry) (w : Nat) :
    constructManager id ⟨l, false, w⟩ =
      ({ storageKey := ACTIVE_SESSION_KEY_NS ++ id, isActiveSession := true,
         intervalRunning := true, conflictCount := 0 }, ⟨l, false, w + 1⟩) := by
  simp [constructManager, claimSession]

theorem constructAll_shape :
    ∀ (ids : List String) (hne : ids ≠ []) (l tail : List Entry) (w : Nat),
      (∀ e ∈ l, isClaimKey e.1 = false) →
      (tail = [] ∨ ∃ ck v, tail = [(ck, v)] ∧ isClaimKey ck = true) →
      constructAll ids ⟨l ++ tail, true, w⟩
        = ⟨l ++ [(ACTIVE_SESSION_KEY_NS ++ ids.getLast hne, "active")], true, w⟩
  | [], hne, _, _, _, _, _ => absurd rfl hne
  | [i], _, l, tail, w, hl, ht => by
    show constructAll [] (constructManager i ⟨l ++ tail, true, w⟩).2 = _
    rw [constructManager_storage i l tail w hl ht]
    rfl
  | i :: j :: rest, _, l, tail, w, hl, ht => by
    show constructAll (j :: rest) (constructManager i ⟨l ++ tail, true, w⟩).2 = _
    rw [constructManager_storage i l tail w hl ht]
    have hrec := constructAll_shape (j :: rest) (List.cons_ne_nil j rest) l
      [(ACTIVE_SESSION_KEY_NS ++ i, "active")] w hl
      (Or.inr ⟨ACTIVE_SESSION_KEY_NS ++ i, "active", rfl, isClaimKey_ns_append i⟩)
    rw [hrec]
    have hlast : (i :: j :: rest).getLast (by simp)
        = (j :: rest).getLast (List.cons_ne_nil j rest) := by
      rw [List.getLast_cons]
    simp [hlast]

/-! Effect of one firing of the periodic check, by branch. -/

theorem periodicCheck_evicted_id (m : ActiveSessionManager) (s : Sys)
    (h : m.isActiveSession = false) : periodicCheck m s = (m, s) := by
  by_cases hr : m.intervalRunning
  · simp [periodicCheck, hr, h]
  · simp [periodicCheck, hr]

theorem periodicCheck_evict (m : ActiveSessionManager) (s : Sys)
    (hrun : m.intervalRunning = true) (hact : m.isActiveSession = true)
    (hav : s.available = true)
    (hget : getItem s.storage m.storageKey ≠ some "active") :
    periodicCheck m s =
      ({ m with isActiveSession := false,
                conflictCount := m.conflictCount + 1,
                intervalRunning := false }, s) := by
  simp [periodicCheck, hrun, hact, hav, hget]

theorem periodicCheck_unavailable (m : ActiveSessionManager) (s : Sys)
    (hrun : m.intervalRunning = true) (hact : m.isActiveSession = true)
    (hav : s.available = false) :
    periodicCheck m s = (m, { s with warnings := s.warnings + 1 }) := by
  simp [periodicCheck, hrun, hact, hav]

theorem periodicCheckN_evicted_id (n : Nat) (m : ActiveSessionManager) (s : Sys)
    (h : m.isActiveSession = false) : periodicCheckN n m s = (m, s) := by
  induction n with
  | zero => rfl
  | succ k ih =>
    show periodicCheckN k (periodicCheck m s).1 (periodicCheck m s).2 = (m, s)
    rw [periodicCheck_evicted_id m s h]
    exact ih

theorem periodicCheckN_unavailable :
    ∀ (n : Nat) (m : ActiveSessionManager) (s : Sys),
      m.intervalRunning = true → m.isActiveSession = true → s.available = false →
      periodicCheckN n m s = (m, { s with warnings := s.warnings + n })
  | 0, m, s, _, _, _ => rfl
  | n + 1, m, s, hrun, hact, hav => by
    show periodicCheckN n (periodicCheck m s).1 (periodicCheck m s).2 = _
    rw [periodicCheck_unavailable m s hrun hact hav]
    show periodicCheckN n m { s with warnings := s.warnings + 1 } = _
    rw [periodicCheckN_unavailable n m { s with warnings := s.warnings + 1 } hrun hact hav]
    simp [Nat.add_assoc, Nat.add_comm 1 n]

theorem periodicCheck_fst_cases (m : ActiveSessionManager) (s : Sys) :
    (periodicCheck m s).1 = m ∨
    ((periodicCheck m s).1.isActiveSession = false ∧
     (periodicCheck m s).1.conflictCount = m.conflictCount + 1) := by
  by_cases h1 : m.intervalRunning
  · by_cases h2 : m.isActiveSession
    · by_cases h3 : s.available
      · by_cases h4 : getItem s.storage m.storageKey = some "active"
        · left
          simp [periodicCheck, h1, h2, h3, h4]
        · right
          simp [periodicCheck, h1, h2, h3, h4]
      · left
        simp [periodicCheck, h1, h2, h3]
    · left
      simp [periodicCheck, h1, h2]
  · left
    simp [periodicCheck, h1]

theorem periodicCheckN_conflict_le (n : Nat) (m : ActiveSessionManager) (s : Sys)
    (h : m.conflictCount = 0) : (periodicCheckN n m s).1.conflictCount ≤ 1 := by
  induction n generalizing m s with
  | zero => simp [periodicCheckN, h]
  | succ k ih =>
    show (periodicCheckN k (periodicCheck m s).1 (periodicCheck m s).2).1.conflictCount ≤ 1
    rcases periodicCheck_fst_cases m s with hid | ⟨hact, hcc⟩
    · rw [hid]
      exact ih _ _ h
    · rw [periodicCheckN_evicted_id k _ _ hact]
      simp [hcc, h]

/-! Effect of releaseSession, by branch. -/

theorem releaseSession_fst (m : ActiveSessionManager) (s : Sys) :
    (releaseSession m s).1 = { m with intervalRunning := false } := by
  unfold releaseSession
  by_cases h1 : m.isActiveSession <;> by_cases h2 : s.available <;> simp [h1, h2]

theorem releaseSession_snd_active (m : ActiveSessionManager) (s : Sys)
    (hact : m.isActiveSession = true) (hav : s.available = true) :
    (releaseSession m s).2 = { s with storage := removeItem s.storage m.storageKey } := by
  simp [releaseSession, hact, hav]

/-! The claimed properties. -/

/-- C1: starting from a namespace with no claim keys, constructing instance A
and then instance B and then firing A's periodic check once makes A's
conflict callback fire exactly once (its invocation count goes from 0 to 1)
and flips A's `isCurrentActiveSession` to false, while B's stays true. -/
theorem second_construction_evicts_first (idA idB : String) (s0 : Sys)
    (hav : s0.available = true)
    (hclean : ∀ e ∈ s0.storage, isClaimKey e.1 = false)
    (hne : idA ≠ idB) :
    (constructManager idA s0).1.conflictCount = 0 ∧
    (periodicCheck (constructManager idA s0).1
        (constructManager idB (constructManager idA s0).2).2).1.conflictCount = 1 ∧
    isCurrentActiveSession
        (periodicCheck (constructManager idA s0).1
          (constructManager idB (constructManager idA s0).2).2).1 = false ∧
    isCurrentActiveSession
        (constructManager idB (constructManager idA s0).2).1 = true := by
  obtain ⟨l, av, w⟩ := s0
  change av = true at hav
  subst hav
  change ∀ e ∈ l, isClaimKey e.1 = false at hclean
  have hA1 := constructManager_fst idA ⟨l, true, w⟩ rfl
  have hA2 : (constructManager idA ⟨l, true, w⟩).2
      = ⟨l ++ [(ACTIVE_SESSION_KEY_NS ++ idA, "active")], true, w⟩ := by
    have h := constructManager_storage idA l [] w hclean (Or.inl rfl)
    rw [List.append_nil] at h
    exact h
  have hB1 : (constructManager idB (constructManager idA ⟨l, true, w⟩).2).1
      = { storageKey := ACTIVE_SESSION_KEY_NS ++ idB, isActiveSession := true,
          intervalRunning := true, conflictCount := 0 } := by
    rw [hA2]
    exact constructManager_fst idB _ rfl
  have hB2 : (constructManager idB (constructManager idA ⟨l, true, w⟩).2).2
      = ⟨l ++ [(ACTIVE_SESSION_KEY_NS ++ idB, "active")], true, w⟩ := by
    rw [hA2]
    exact constructManager_storage idB l [(ACTIVE_SESSION_KEY_NS ++ idA, "active")] w
      hclean (Or.inr ⟨_, _, rfl, isClaimKey_ns_append idA⟩)
  have hget : getItem (l ++ [(ACTIVE_SESSION_KEY_NS ++ idB, "active")])
      (ACTIVE_SESSION_KEY_NS ++ idA) = none := by
    apply getItem_absent
    intro e he
    rcases List.mem_append.mp he with hl2 | hr2
    · exact notClaim_ne_nsKey idA (hclean e hl2)
    · simp only [List.mem_singleton] at hr2
      rw [hr2]
      intro heq
      exact hne (nsKey_inj heq).symm
  have hcheck : periodicCheck (constructManager idA ⟨l, true, w⟩).1
      (constructManager idB (constructManager idA ⟨l, true, w⟩).2).2
      = ({ storageKey := ACTIVE_SESSION_KEY_NS ++ idA, isActiveSession := false,
           intervalRunning := false, conflictCount := 1 },
         ⟨l ++ [(ACTIVE_SESSION_KEY_NS ++ idB, "active")], true, w⟩) := by
    rw [hA1, hB2]
    exact periodicCheck_evict _ _ rfl rfl rfl (by simp [hget])
  refine ⟨?_, ?_, ?_, ?_⟩
  · rw [hA1]
  · rw [hcheck]
  · rw [hcheck]
    rfl
  · rw [hB1]
    rfl

theorem second_construction_evicts_first_witness :
    (constructManager "a" ⟨[], true, 0⟩).1.conflictCount = 0 ∧
    (periodicCheck (constructManager "a" ⟨[], true, 0⟩).1
        (constructManager "b" (constructManager "a" ⟨[], true, 0⟩).2).2).1.conflictCount
      = 1 ∧
    isCurrentActiveSession
        (periodicCheck (constructManager "a" ⟨[], true, 0⟩).1
          (constructManager "b" (constructManager "a" ⟨[], true, 0⟩).2).2).1 = false ∧
    isCurrentActiveSession
        (constructManager "b" (constructManager "a" ⟨[], true, 0⟩).2).1 = true :=
  second_construction_evicts_first "a" "b" ⟨[], true, 0⟩ rfl (by simp) (by decide)

/-- C2 counterexample: with two claim keys adjacent in the enumeration, the
constructor's sweep removes the first but skips the second (the loop keeps
incrementing `i` after a removal), so a pre-existing claim key different from
the new instance's key survives construction. -/
theorem sweep_misses_adjacent_claim_key :
    ((constructManager "z"
          ⟨[(ACTIVE_SESSION_KEY_NS ++ "x", "active"),
            (ACTIVE_SESSION_KEY_NS ++ "y", "active")], true, 0⟩).2.storage.any
        (fun e => e.1 == ACTIVE_SESSION_KEY_NS ++ "y")) = true ∧
    isClaimKey (ACTIVE_SESSION_KEY_NS ++ "y") = true ∧
    ACTIVE_SESSION_KEY_NS ++ "y" ≠ ACTIVE_SESSION_KEY_NS ++ "z" := by
  refine ⟨by decide, by decide, by decide⟩

/-- C2 (amended): for every initial storage state in which no two adjacent
entries of the enumeration both carry claim keys — in particular whenever at
most one claim key exists — construction removes every existing claim key
before writing its own, so the new instance's key is the only claim key
under the namespace afterwards. -/
theorem construction_sole_claim_key (id : String) (s : Sys)
    (hav : s.available = true) (hadj : noAdjacentClaims s.storage = true) :
    ((constructManager id s).2.storage.filter (fun e => isClaimKey e.1))
      = [(ACTIVE_SESSION_KEY_NS ++ id, "active")] := by
  rw [constructManager_eq id s hav hadj]
  show ((claimSweep s.storage ++ [(ACTIVE_SESSION_KEY_NS ++ id, "active")]).filter
      (fun e => isClaimKey e.1)) = _
  rw [List.filter_append]
  have h1 : (claimSweep s.storage).filter (fun e => isClaimKey e.1) = [] := by
    rw [List.filter_eq_nil_iff]
    intro e he
    simp [claimSweep_clean s.storage hadj e he]
  rw [h1]
  simp [isClaimKey_ns_append]

theorem construction_sole_claim_key_witness :
    ((constructManager "w"
          ⟨[("other", "v"), (ACTIVE_SESSION_KEY_NS ++ "x", "active")], true, 0⟩).2.storage.filter
        (fun e => isClaimKey e.1))
      = [(ACTIVE_SESSION_KEY_NS ++ "w", "active")] :=
  construction_sole_claim_key "w"
    ⟨[("other", "v"), (ACTIVE_SESSION_KEY_NS ++ "x", "active")], true, 0⟩ rfl (by decide)

/-- C3: constructing any nonempty sequence of instances in strict order,
starting from an available storage holding no claim keys, leaves exactly one
claim key under the namespace, and it is the last-constructed instance's. -/
theorem sequential_constructions_single_claim (ids : List String) (hne : ids ≠ [])
    (s0 : Sys) (hav : s0.available = true)
    (hclean : ∀ e ∈ s0.storage, isClaimKey e.1 = false) :
    (constructAll ids s0).storage.filter (fun e => isClaimKey e.1)
      = [(ACTIVE_SESSION_KEY_NS ++ ids.getLast hne, "active")] := by
  obtain ⟨l, av, w⟩ := s0
  change av = true at hav
  subst hav
  change ∀ e ∈ l, isClaimKey e.1 = false at hclean
  have h := constructAll_shape ids hne l [] w hclean (Or.inl rfl)
  rw [List.append_nil] at h
  rw [h]
  show (l ++ [(ACTIVE_SESSION_KEY_NS ++ ids.getLast hne, "active")]).filter
      (fun e => isClaimKey e.1) = _
  rw [List.filter_append]
  have h1 : l.filter (fun e => isClaimKey e.1) = [] := by
    rw [List.filter_eq_nil_iff]
    intro e he
    simp [hclean e he]
  rw [h1]
  simp [isClaimKey_ns_append]

theorem sequential_constructions_single_claim_witness :
    (constructAll ["a", "b", "c"] ⟨[("other", "v")], true, 0⟩).storage.filter
        (fun e => isClaimKey e.1)
      = [(ACTIVE_SESSION_KEY_NS ++ "c", "active")] :=
  sequential_constructions_single_claim ["a", "b", "c"] (by decide)
    ⟨[("other", "v")], true, 0⟩ rfl (by decide)

/-- C4: the conflict callback fires at most once per instance lifetime; once
evicted, any further number of periodic checks is a complete no-op (and in
particular fires no callback and changes no state), and from a fresh
instance the invocation count never exceeds one. -/
theorem conflict_at_most_once (n : Nat) (m : ActiveSessionManager) (s : Sys) :
    (m.isActiveSession = false → periodicCheckN n m s = (m, s)) ∧
    (m.conflictCount = 0 → (periodicCheckN n m s).1.conflictCount ≤ 1) :=
  ⟨fun h => periodicCheckN_evicted_id n m s h,
   fun h => periodicCheckN_conflict_le n m s h⟩

theorem conflict_at_most_once_witness :
    periodicCheckN 2 ⟨ACTIVE_SESSION_KEY_NS ++ "a", false, false, 0⟩ ⟨[], true, 0⟩
      = (⟨ACTIVE_SESSION_KEY_NS ++ "a", false, false, 0⟩, ⟨[], true, 0⟩) ∧
    (periodicCheckN 2 ⟨ACTIVE_SESSION_KEY_NS ++ "a", false, false, 0⟩
        ⟨[], true, 0⟩).1.conflictCount ≤ 1 :=
  ⟨(conflict_at_most_once 2 ⟨ACTIVE_SESSION_KEY_NS ++ "a", false, false, 0⟩
      ⟨[], true, 0⟩).1 rfl,
   (conflict_at_most_once 2 ⟨ACTIVE_SESSION_KEY_NS ++ "a", false, false, 0⟩
      ⟨[], true, 0⟩).2 rfl⟩

/-- C5: with storage unavailable (every operation throws), construction and
any number of periodic checks complete without raising — the embedding stays
in the catch branches — the instance still reports itself active, the
storage contents are untouched, and one warning is logged per failed
operation: one for the construction-time claim, one per check. -/
theorem storage_unavailable_degrades (id : String) (l : List Entry) (w n : Nat) :
    isCurrentActiveSession
        (periodicCheckN n (constructManager id ⟨l, false, w⟩).1
          (constructManager id ⟨l, false, w⟩).2).1 = true ∧
    (periodicCheckN n (constructManager id ⟨l, false, w⟩).1
        (constructManager id ⟨l, false, w⟩).2).2 = ⟨l, false, (w + 1) + n⟩ := by
  rw [constructManager_unavailable id l w]
  rw [periodicCheckN_unavailable n _ _ rfl rfl rfl]
  exact ⟨rfl, rfl⟩

/-- C6: releasing a still-active instance removes its claim key from storage,
and a second release on the resulting state changes nothing (and, like every
operation of the embedding, cannot throw). -/
theorem release_removes_key_and_idempotent (m : ActiveSessionManager) (s : Sys)
    (hact : m.isActiveSession = true) (hav : s.available = true) :
    getItem (releaseSession m s).2.storage m.storageKey = none ∧
    releaseSession (releaseSession m s).1 (releaseSession m s).2
      = ((releaseSession m s).1, (releaseSession m s).2) := by
  obtain ⟨key, act, run, cc⟩ := m
  obtain ⟨l, av, w⟩ := s
  change act = true at hact
  change av = true at hav
  subst hact
  subst hav
  constructor
  · rw [releaseSession_snd_active _ _ rfl rfl]
    exact getItem_removeItem_self l key
  · simp [releaseSession, removeItem_idem]

theorem release_removes_key_and_idempotent_witness :
    getItem (releaseSession ⟨ACTIVE_SESSION_KEY_NS ++ "a", true, true, 0⟩
        ⟨[(ACTIVE_SESSION_KEY_NS ++ "a", "active")], true, 0⟩).2.storage
      (ACTIVE_SESSION_KEY_NS ++ "a") = none ∧
    releaseSession
        (releaseSession ⟨ACTIVE_SESSION_KEY_NS ++ "a", true, true, 0⟩
          ⟨[(ACTIVE_SESSION_KEY_NS ++ "a", "active")], true, 0⟩).1
        (releaseSession ⟨ACTIVE_SESSION_KEY_NS ++ "a", true, true, 0⟩
          ⟨[(ACTIVE_SESSION_KEY_NS ++ "a", "active")], true, 0⟩).2
      = ((releaseSession ⟨ACTIVE_SESSION_KEY_NS ++ "a", true, true, 0⟩
            ⟨[(ACTIVE_SESSION_KEY_NS ++ "a", "active")], true, 0⟩).1,
         (releaseSession ⟨ACTIVE_SESSION_KEY_NS ++ "a", true, true, 0⟩
            ⟨[(ACTIVE_SESSION_KEY_NS ++ "a", "active")], true, 0⟩).2) :=
  release_removes_key_and_idempotent ⟨ACTIVE_SESSION_KEY_NS ++ "a", true, true, 0⟩
    ⟨[(ACTIVE_SESSION_KEY_NS ++ "a", "active")], true, 0⟩ rfl rfl

/-- C7: releasing an already-evicted instance leaves the storage completely
untouched (in particular it removes no other instance's claim key) and does
not throw; the only effect is clearing the interval. -/
theorem release_after_eviction_noop (m : ActiveSessionManager) (s : Sys)
    (hev : m.isActiveSession = false) :
    releaseSession m s = ({ m with intervalRunning := false }, s) := by
  simp [releaseSession, hev]

theorem release_after_eviction_noop_witness :
    releaseSession ⟨ACTIVE_SESSION_KEY_NS ++ "a", false, false, 1⟩
        ⟨[(ACTIVE_SESSION_KEY_NS ++ "b", "active")], true, 0⟩
      = (⟨ACTIVE_SESSION_KEY_NS ++ "a", false, false, 1⟩,
         ⟨[(ACTIVE_SESSION_KEY_NS ++ "b", "active")], true, 0⟩) :=
  release_after_eviction_noop ⟨ACTIVE_SESSION_KEY_NS ++ "a", false, false, 1⟩
    ⟨[(ACTIVE_SESSION_KEY_NS ++ "b", "active")], true, 0⟩ rfl

/-- C8: eviction is terminal — once the in-memory active flag is false, no
sequence of the public operations (periodic checks, releases, queries) ever
makes `isCurrentActiveSession` report true again for that instance. -/
theorem evicted_terminal (ops : List ArbOp) (m : ActiveSessionManager) (s : Sys)
    (hev : m.isActiveSession = false) :
    isCurrentActiveSession (applyOps ops m s).1 = false := by
  induction ops generalizing m s with
  | nil => exact hev
  | cons o os ih =>
    have hstep : (applyOp o m s).1.isActiveSession = false := by
      cases o with
      | check =>
        show (periodicCheck m s).1.isActiveSession = false
        rw [periodicCheck_evicted_id m s hev]
        exact hev
      | release =>
        show (releaseSession m s).1.isActiveSession = false
        rw [releaseSession_fst]
        exact hev
      | query => exact hev
    show isCurrentActiveSession (applyOps os (applyOp o m s).1 (applyOp o m s).2).1 = false
    exact ih _ _ hstep

theorem evicted_terminal_witness :
    isCurrentActiveSession
        (applyOps [ArbOp.check, ArbOp.release, ArbOp.check, ArbOp.query]
          ⟨ACTIVE_SESSION_KEY_NS ++ "a", false, false, 1⟩ ⟨[], true, 0⟩).1 = false :=
  evicted_terminal [ArbOp.check, ArbOp.release, ArbOp.check, ArbOp.query]
    ⟨ACTIVE_SESSION_KEY_NS ++ "a", false, false, 1⟩ ⟨[], true, 0⟩ rfl

/-- C9: `releaseSession` never writes the in-memory active flag: on a
still-active instance it removes the claim key and stops the timer, yet
`isCurrentActiveSession` still returns true afterwards. -/
theorem release_keeps_active_flag (m : ActiveSessionManager) (s : Sys)
    (hact : m.isActiveSession = true) :
    isCurrentActiveSession (releaseSession m s).1 = true ∧
    (releaseSession m s).1.intervalRunning = false := by
  rw [releaseSession_fst]
  exact ⟨hact, rfl⟩

theorem release_keeps_active_flag_witness :
    isCurrentActiveSession
        (releaseSession ⟨ACTIVE_SESSION_KEY_NS ++ "a", true, true, 0⟩
          ⟨[(ACTIVE_SESSION_KEY_NS ++ "a", "active")], true, 0⟩).1 = true ∧
    (releaseSession ⟨ACTIVE_SESSION_KEY_NS ++ "a", true, true, 0⟩
        ⟨[(ACTIVE_SESSION_KEY_NS ++ "a", "active")], true, 0⟩).1.intervalRunning = false :=
  release_keeps_active_flag ⟨ACTIVE_SESSION_KEY_NS ++ "a", true, true, 0⟩
    ⟨[(ACTIVE_SESSION_KEY_NS ++ "a", "active")], true, 0⟩ rfl

/-- C10: the periodic check evicts whenever the value read back at the
instance's own key is anything other than the exact sentinel string
"active" — key absent included — regardless of why; the witness below runs
the scenario where the construction-time claim write failed (storage
unavailable) and the first check, with storage readable again, evicts even
though no other instance swept the namespace. -/
theorem check_evicts_on_non_sentinel (m : ActiveSessionManager) (s : Sys)
    (hrun : m.intervalRunning = true) (hact : m.isActiveSession = true)
    (hav : s.available = true)
    (hget : getItem s.storage m.storageKey ≠ some "active") :
    periodicCheck m s =
      ({ m with isActiveSession := false,
                conflictCount := m.conflictCount + 1,
                intervalRunning := false }, s) :=
  periodicCheck_evict m s hrun hact hav hget

theorem check_evicts_on_non_sentinel_witness :
    periodicCheck (constructManager "a" ⟨[], false, 0⟩).1 ⟨[], true, 1⟩
      = (⟨ACTIVE_SESSION_KEY_NS ++ "a", false, false, 1⟩, ⟨[], true, 1⟩) :=
  check_evicts_on_non_sentinel (constructManager "a" ⟨[], false, 0⟩).1
    ⟨[], true, 1⟩ rfl rfl rfl (by decide)

end SessionArbiter
